import Mathlib

/-!
Verification of the TractorCare maintenance backend.

This file gives a shallow embedding, over exact rational arithmetic, of the
core services of the backend (`app/services/maintenance_service.py`,
`app/services/baseline_service.py`, `app/routes/tractors.py`) and proves the
behavioural properties stated in the project specification against it.
Python floats are modelled by `ℚ`; all constants appearing in the code
(0.9, 1.1, 0.6, 1e-6, ...) are exactly representable, and every comparison
the code performs is at an exactly representable point, so the rational
model is faithful for the properties proved here.
-/

namespace TractorCare

/-- `UsageIntensity` enum from `app/models/__init__.py`. -/
inductive UsageIntensity
  | light
  | moderate
  | heavy
  | extreme
  deriving DecidableEq, Repr

/-- `MaintenancePriority` enum from `app/models/__init__.py`. -/
inductive MaintenancePriority
  | low
  | medium
  | high
  | critical
  deriving DecidableEq, Repr

/-- `MaintenanceStatus` enum from `app/models/__init__.py`. -/
inductive MaintenanceStatus
  | scheduled
  | due
  | overdue
  | in_progress
  | completed
  | cancelled
  deriving DecidableEq, Repr

/-- `AlertType` enum from `app/models/__init__.py`. -/
inductive AlertType
  | routine_scheduled
  | routine_overdue
  | audio_anomaly
  | critical_failure
  | trend_degradation
  deriving DecidableEq, Repr

/-- `HealthStatus` enum from `app/models/__init__.py`. -/
inductive HealthStatus
  | excellent
  | good
  | fair
  | poor
  | critical
  deriving DecidableEq, Repr

/-- `BaselineStatus` enum from `app/models/__init__.py`. -/
inductive BaselineStatus
  | establishing
  | active
  | archived
  | invalid
  deriving DecidableEq, Repr

/-- `TrendStatus` enum from `app/models/__init__.py`. -/
inductive TrendStatus
  | normal
  | watch
  | warning
  | critical
  deriving DecidableEq, Repr

/-- `MaintenanceAlert` document (the fields the engine reads and writes;
dates are represented by a rational offset in days from `utcnow`). -/
structure MaintenanceAlert where
  tractor_id : String
  alert_type : AlertType
  priority : MaintenancePriority
  status : MaintenanceStatus
  task_name : String
  description : String
  estimated_time_minutes : Nat
  source : String
  due_offset_days : ℚ
  audio_anomaly_score : Option ℚ
  deriving DecidableEq, Repr

/-- The `priority_order` dictionary used by `_deduplicate_alerts` and
`predict_all_maintenance` in `maintenance_service.py`. -/
def priority_order : MaintenancePriority → Nat
  | .critical => 0
  | .high => 1
  | .medium => 2
  | .low => 3

/-! ## Health score (`UnifiedMaintenanceEngine._calculate_health_score`) -/

/-- Penalty one alert contributes inside the loop of
`_calculate_health_score`: 20 for an overdue critical alert, 10 for an
overdue high alert, 5 for any other overdue alert, 0 otherwise. -/
def alert_penalty (a : MaintenanceAlert) : ℚ :=
  if a.status = .overdue then
    if a.priority = .critical then 20
    else if a.priority = .high then 10
    else 5
  else 0

/-- `UnifiedMaintenanceEngine._calculate_health_score`: start at 100,
subtract `alert_penalty` per alert, clamp below at 0. -/
def calculate_health_score (alerts : List MaintenanceAlert) : ℚ :=
  max (alerts.foldl (fun s a => s - alert_penalty a) 100) 0

/-- The health-relevant projection of the dictionary built by
`UnifiedMaintenanceEngine.get_maintenance_summary`: the health score is
`_calculate_health_score(alerts)` and the 7-day anomaly count is a separate
field that the score computation never reads. -/
structure SummaryHealth where
  health_score : ℚ
  recent_anomaly_count : Nat
  deriving DecidableEq, Repr

/-- `get_maintenance_summary`, projected to its health-score and
recent-anomaly-count fields. -/
def get_maintenance_summary_health (alerts : List MaintenanceAlert)
    (recent_anomaly_count : Nat) : SummaryHealth :=
  { health_score := calculate_health_score alerts
    recent_anomaly_count := recent_anomaly_count }

/-- Modelled from the spec (for comparison only): "start at 100; subtract 20
per overdue-critical alert, 10 per overdue-high, 5 per overdue-other;
additionally subtract `min(recent_anomaly_count_7d * 5, 30)`. Clamp to
[0, 100]." -/
def health_score_spec_formula (alerts : List MaintenanceAlert) (n : Nat) : ℚ :=
  let base : ℚ := 100
    - 20 * (alerts.countP (fun a => decide (a.status = .overdue ∧ a.priority = .critical)) : ℚ)
    - 10 * (alerts.countP (fun a => decide (a.status = .overdue ∧ a.priority = .high)) : ℚ)
    - 5 * (alerts.countP (fun a => decide (a.status = .overdue ∧ a.priority ≠ .critical ∧ a.priority ≠ .high)) : ℚ)
    - min ((n : ℚ) * 5) 30
  min (max base 0) 100

/-- Count of overdue alerts with critical priority. -/
def overdue_critical_count (alerts : List MaintenanceAlert) : Nat :=
  alerts.countP (fun a => decide (a.status = .overdue ∧ a.priority = .critical))

/-- Count of overdue alerts with high priority. -/
def overdue_high_count (alerts : List MaintenanceAlert) : Nat :=
  alerts.countP (fun a => decide (a.status = .overdue ∧ a.priority = .high))

/-- Count of overdue alerts with neither critical nor high priority. -/
def overdue_other_count (alerts : List MaintenanceAlert) : Nat :=
  alerts.countP (fun a => decide (a.status = .overdue ∧ a.priority ≠ .critical ∧ a.priority ≠ .high))

/-! ## Score fusion (`BaselineService.combine_scores`) -/

/-- Result record of `BaselineService.combine_scores` (the
recommendation string is determined by the status and omitted). -/
structure CombineResult where
  combined_score : ℚ
  status : TrendStatus
  deviation_score : ℚ
  resnet_score : ℚ
  deriving DecidableEq, Repr

/-- `BaselineService.combine_scores`: normalize the deviation by dividing by
3.0 and clamping to 1.0, weight it against the classifier score, and band the
status on the raw deviation against `THRESHOLDS` = {normal: 2.0, watch: 2.5,
warning: 3.0}. -/
def combine_scores (resnet_score deviation_score resnet_weight baseline_weight : ℚ) :
    CombineResult :=
  let normalized_deviation := min 1 (deviation_score / 3)
  let combined_score := resnet_weight * resnet_score + baseline_weight * normalized_deviation
  let status : TrendStatus :=
    if deviation_score < 2 then .normal
    else if deviation_score < 5/2 then .watch
    else if deviation_score < 3 then .warning
    else .critical
  { combined_score := combined_score
    status := status
    deviation_score := deviation_score
    resnet_score := resnet_score }

/-! ## Deviation (`BaselineService.calculate_deviation`) -/

/-- Result record of `BaselineService.calculate_deviation`. -/
structure DeviationResult where
  average_deviation : ℚ
  max_deviation : ℚ
  percentage_anomalous : ℚ
  num_anomalous_features : Nat
  total_features : Nat
  deriving DecidableEq, Repr

/-- The `np.where(baseline_std == 0, 1e-6, baseline_std)` substitution:
every zero entry of the std vector is replaced by epsilon `1e-6`. -/
def eps_substitute (s : List ℚ) : List ℚ :=
  s.map (fun x => if x = 0 then 1/1000000 else x)

/-- `BaselineService.calculate_deviation`: truncate the three vectors to the
shortest common length, substitute epsilon for zero stds, take element-wise
`|(new - mean) / std|`, and report mean / max / over-2-sigma statistics.
`np.max` of an empty array raises (and `np.mean` is NaN), so the empty case
is modelled as `none`. -/
def calculate_deviation (new_mfcc baseline_mean baseline_std : List ℚ) :
    Option DeviationResult :=
  let min_len := min (min new_mfcc.length baseline_mean.length) baseline_std.length
  let v := new_mfcc.take min_len
  let m := baseline_mean.take min_len
  let s := eps_substitute (baseline_std.take min_len)
  let z := ((v.zip m).zip s).map (fun p => |(p.1.1 - p.1.2) / p.2|)
  match z with
  | [] => none
  | z0 :: zrest =>
    let zs := z0 :: zrest
    some
      { average_deviation := zs.sum / (zs.length : ℚ)
        max_deviation := zrest.foldl max z0
        percentage_anomalous := ((zs.countP (fun x => decide (2 < x)) : ℚ) / (zs.length : ℚ)) * 100
        num_anomalous_features := zs.countP (fun x => decide (2 < x))
        total_features := zs.length }

/-! ## Schedule predictor (`MaintenancePredictor.predict_single_task`) -/

/-- `MaintenanceTaskInfo` model (catalog entry of a maintenance schedule). -/
structure MaintenanceTaskInfo where
  task_name : String
  description : String
  priority : MaintenancePriority
  interval_hours : ℚ
  interval_days : ℤ
  estimated_time_minutes : Nat
  source : String
  deriving DecidableEq, Repr

/-- `MaintenancePredictor._get_usage_factor`: light=0.8, moderate=1.0,
heavy=1.2, extreme=1.5 (these four values exhaust the `UsageIntensity`
enum, so the dictionary's 1.0 default is unreachable). -/
def get_usage_factor : UsageIntensity → ℚ
  | .light => 4/5
  | .moderate => 1
  | .heavy => 6/5
  | .extreme => 3/2

/-- The adjusted hour interval `task_info.interval_hours / usage_factor`. -/
def adjusted_interval_hours (task : MaintenanceTaskInfo) (u : UsageIntensity) : ℚ :=
  task.interval_hours / get_usage_factor u

/-- The adjusted day interval `task_info.interval_days / usage_factor`. -/
def adjusted_interval_days (task : MaintenanceTaskInfo) (u : UsageIntensity) : ℚ :=
  (task.interval_days : ℚ) / get_usage_factor u

/-- `progress = max(hours_since / interval_hours, days_since / interval_days)`
with the usage-adjusted intervals, as computed in `predict_single_task`. -/
def schedule_progress (task : MaintenanceTaskInfo) (hours_since : ℚ) (days_since : ℤ)
    (u : UsageIntensity) : ℚ :=
  max (hours_since / adjusted_interval_hours task u)
    ((days_since : ℚ) / adjusted_interval_days task u)

/-- Body of `MaintenancePredictor.predict_single_task` before its
`except Exception` handler. Inputs: the tractor id, its engine hours, the
hours recorded at last service (`0.0` when no record exists), the integer
number of days since the last service date (`(utcnow - last_date).days`),
and the usage intensity. A zero adjusted interval makes the Python float
division raise `ZeroDivisionError`; that is the `.error` case. The local
variables `interval_hours`, `interval_days` and `progress` of the Python
function are the named definitions `adjusted_interval_hours`,
`adjusted_interval_days` and `schedule_progress`. -/
def predict_single_task_checked (task : MaintenanceTaskInfo) (tractor_id : String)
    (engine_hours last_hours : ℚ) (days_since : ℤ) (u : UsageIntensity) :
    Except String (Option MaintenanceAlert) :=
  if adjusted_interval_hours task u = 0 then .error "ZeroDivisionError"
  else if adjusted_interval_days task u = 0 then .error "ZeroDivisionError"
  else
    if schedule_progress task (engine_hours - last_hours) days_since u < 9/10 then .ok none
    else if 11/10 ≤ schedule_progress task (engine_hours - last_hours) days_since u then
      .ok (some
        { tractor_id := tractor_id
          alert_type := .routine_overdue
          priority := .critical
          status := .overdue
          task_name := task.task_name
          description := task.description
          estimated_time_minutes := task.estimated_time_minutes
          source := task.source
          due_offset_days := 0
          audio_anomaly_score := none })
    else if 1 ≤ schedule_progress task (engine_hours - last_hours) days_since u then
      .ok (some
        { tractor_id := tractor_id
          alert_type := .routine_overdue
          priority := task.priority
          status := .overdue
          task_name := task.task_name
          description := task.description
          estimated_time_minutes := task.estimated_time_minutes
          source := task.source
          due_offset_days := 3
          audio_anomaly_score := none })
    else
      .ok (some
        { tractor_id := tractor_id
          alert_type := .routine_scheduled
          priority := task.priority
          status := .due
          task_name := task.task_name
          description := task.description
          estimated_time_minutes := task.estimated_time_minutes
          source := task.source
          due_offset_days :=
            max (min ((adjusted_interval_hours task u - (engine_hours - last_hours)) / 8)
              (adjusted_interval_days task u - (days_since : ℚ))) 0
          audio_anomaly_score := none })

/-- `MaintenancePredictor.predict_single_task` including its
`except Exception: logger.error(...); return None` handler: any internal
failure is logged and collapsed to `None`, exactly like the no-alert case. -/
def predict_single_task (task : MaintenanceTaskInfo) (tractor_id : String)
    (engine_hours last_hours : ℚ) (days_since : ℤ) (u : UsageIntensity) :
    Option MaintenanceAlert :=
  match predict_single_task_checked task tractor_id engine_hours last_hours days_since u with
  | .error _ => none
  | .ok r => r

/-! ## Alert deduplication (`UnifiedMaintenanceEngine._deduplicate_alerts`) -/

/-- Replace the value of the first entry whose key satisfies `p`, applying
`f`; used to model an in-place update of a Python dict entry or a saved
document. -/
def updateFirstBy (p : α → Bool) (f : α → α) : List α → List α
  | [] => []
  | x :: xs => if p x then f x :: xs else x :: updateFirstBy p f xs

/-- One iteration of the loop in `_deduplicate_alerts` over the
insertion-ordered dict `task_alerts`: a fresh `task_name` is appended; an
existing entry is replaced in place when the new alert has strictly higher
priority (strictly smaller `priority_order` index). -/
def dedup_step (m : List (String × MaintenanceAlert)) (a : MaintenanceAlert) :
    List (String × MaintenanceAlert) :=
  match m.lookup a.task_name with
  | none => m ++ [(a.task_name, a)]
  | some existing =>
    if priority_order a.priority < priority_order existing.priority then
      updateFirstBy (fun p => p.1 == a.task_name) (fun p => (p.1, a)) m
    else m

/-- `UnifiedMaintenanceEngine._deduplicate_alerts`: fold the alerts into the
dict and return `list(task_alerts.values())` (Python dicts preserve key
insertion order). -/
def deduplicate_alerts (alerts : List MaintenanceAlert) : List MaintenanceAlert :=
  (alerts.foldl dedup_step []).map Prod.snd

/-! ## Baseline lifecycle (`BaselineService`) -/

/-- `TractorBaseline` document (claim-relevant fields). -/
structure TractorBaselineDoc where
  tractor_id : String
  baseline_mean : List ℚ
  baseline_std : List ℚ
  tractor_hours : ℚ
  num_samples : Nat
  sample_files : List String
  confidence : ℚ
  status : BaselineStatus
  is_active : Bool
  deriving DecidableEq, Repr

/-- `BaselineMetadata` document (claim-relevant fields). -/
structure BaselineMetadataDoc where
  tractor_id : String
  target_samples : Nat
  collected_samples : Nat
  sample_files : List String
  status : BaselineStatus
  deriving DecidableEq, Repr

/-- The persistent store the service reads and writes, with documents kept
in insertion order (`find_one` returns the first match). -/
structure DBState where
  baselines : List TractorBaselineDoc
  sessions : List BaselineMetadataDoc
  deriving DecidableEq, Repr

/-- The `find_one({"tractor_id": tid, "status": ESTABLISHING})` predicate. -/
def establishing_pred (tid : String) (md : BaselineMetadataDoc) : Bool :=
  decide (md.tractor_id = tid ∧ md.status = BaselineStatus.establishing)

/-- The `find_one({"tractor_id": tid, "is_active": True})` predicate used by
`_archive_existing_baseline`. -/
def active_pred (tid : String) (b : TractorBaselineDoc) : Bool :=
  decide (b.tractor_id = tid ∧ b.is_active = true)

/-- The fresh metadata document `start_baseline_collection` inserts. -/
def new_session (tid : String) (target : Nat) : BaselineMetadataDoc :=
  { tractor_id := tid
    target_samples := target
    collected_samples := 0
    sample_files := []
    status := .establishing }

/-- `BaselineService.start_baseline_collection`: if a session in the
ESTABLISHING state exists for the tractor, log a warning and return it
unchanged (no exception is raised, no document is written); otherwise
insert a fresh session. -/
def start_baseline_collection (tid : String) (target : Nat) (s : DBState) :
    Except String (BaselineMetadataDoc × DBState) :=
  match s.sessions.find? (establishing_pred tid) with
  | some existing => .ok (existing, s)
  | none =>
    let md := new_session tid target
    .ok (md, { s with sessions := s.sessions ++ [md] })

/-- The mutation `add_baseline_sample` performs on the found session:
append the file path and increment `collected_samples`. -/
def sample_added (path : String) (md : BaselineMetadataDoc) : BaselineMetadataDoc :=
  { md with
    sample_files := md.sample_files ++ [path]
    collected_samples := md.collected_samples + 1 }

/-- `BaselineService.add_baseline_sample`: raise `ValueError` when no
ESTABLISHING session exists, otherwise mutate and save the session. -/
def add_baseline_sample (tid path : String) (s : DBState) :
    Except String (BaselineMetadataDoc × DBState) :=
  match s.sessions.find? (establishing_pred tid) with
  | none => .error "No active baseline collection"
  | some md =>
    .ok (sample_added path md,
      { s with sessions := updateFirstBy (establishing_pred tid) (sample_added path) s.sessions })

/-- The mutation `_archive_existing_baseline` performs on the found
baseline: `is_active = False`, `status = ARCHIVED`. -/
def archived_doc (b : TractorBaselineDoc) : TractorBaselineDoc :=
  { b with is_active := false, status := .archived }

/-- `BaselineService._archive_existing_baseline`: find the first baseline
with `is_active=True` for the tractor and archive it in place; do nothing
when there is none. -/
def archive_existing_baseline (tid : String) (bs : List TractorBaselineDoc) :
    List TractorBaselineDoc :=
  updateFirstBy (active_pred tid) archived_doc bs

/-- The new baseline document built inside `finalize_baseline`: statistics
(local `baseline_mean`, `baseline_std`, `confidence` from
`_calculate_baseline_stats`) over the successfully extracted samples,
inserted as ACTIVE. -/
def finalized_baseline (tid : String) (tractor_hours : ℚ)
    (extract : String → Option (List ℚ))
    (stats : List (List ℚ) → List ℚ × List ℚ × ℚ)
    (md : BaselineMetadataDoc) : TractorBaselineDoc :=
  { tractor_id := tid
    baseline_mean := (stats (md.sample_files.filterMap extract)).1
    baseline_std := (stats (md.sample_files.filterMap extract)).2.1
    tractor_hours := tractor_hours
    num_samples := (md.sample_files.filterMap extract).length
    sample_files := md.sample_files
    confidence := (stats (md.sample_files.filterMap extract)).2.2
    status := .active
    is_active := true }

/-- `BaselineService.finalize_baseline`. Feature extraction
(`extract_mfcc_features`, librosa over an audio file) is external I/O and is
passed in as the oracle `extract` (`none` models a sample whose extraction
raises and is skipped); the numeric baseline statistics
(`_calculate_baseline_stats`, whose std involves an irrational square root)
are passed in as the oracle `stats` returning (mean, std, confidence).
Neither oracle influences the control flow beyond the count of successfully
extracted samples, which is `extract`-determined. -/
def finalize_baseline (tid : String) (tractor_hours : ℚ)
    (extract : String → Option (List ℚ))
    (stats : List (List ℚ) → List ℚ × List ℚ × ℚ)
    (s : DBState) : Except String (TractorBaselineDoc × DBState) :=
  match s.sessions.find? (establishing_pred tid) with
  | none => .error "No active baseline collection"
  | some md =>
    if md.collected_samples < 3 then
      .error "Need at least 3 samples"
    else if (md.sample_files.filterMap extract).length < 3 then
      .error "Could not extract features from enough samples"
    else
      .ok (finalized_baseline tid tractor_hours extract stats md,
        { baselines := archive_existing_baseline tid s.baselines
            ++ [finalized_baseline tid tractor_hours extract stats md]
          sessions := updateFirstBy (establishing_pred tid)
            (fun m => { m with status := .active }) s.sessions })

/-- `BaselineService.get_active_baseline` predicate:
`is_active=True` and `status=ACTIVE`. -/
def active_status_pred (tid : String) (b : TractorBaselineDoc) : Bool :=
  decide (b.tractor_id = tid ∧ b.is_active = true ∧ b.status = BaselineStatus.active)

/-- `BaselineService.delete_baseline`: delete the active baseline (if any)
and the ESTABLISHING metadata (if any). -/
def delete_baseline (tid : String) (s : DBState) : DBState :=
  match s.baselines.find? (active_status_pred tid) with
  | some _ =>
    match s.sessions.find? (establishing_pred tid) with
    | some _ =>
      { baselines := s.baselines.eraseP (active_status_pred tid)
        sessions := s.sessions.eraseP (establishing_pred tid) }
    | none => { s with baselines := s.baselines.eraseP (active_status_pred tid) }
  | none =>
    match s.sessions.find? (establishing_pred tid) with
    | some _ => { s with sessions := s.sessions.eraseP (establishing_pred tid) }
    | none => s

/-- A client-visible baseline operation. -/
inductive BaselineOp
  | start (tid : String) (target : Nat)
  | addSample (tid path : String)
  | finalize (tid : String) (hours : ℚ)
  | delete (tid : String)

/-- Run one operation against the store; an operation that raises leaves
the store unchanged (the route handlers translate the exception to an HTTP
error without writing). -/
def run_baseline_op (extract : String → Option (List ℚ))
    (stats : List (List ℚ) → List ℚ × List ℚ × ℚ)
    (s : DBState) : BaselineOp → DBState
  | .start tid target =>
    match start_baseline_collection tid target s with
    | .ok r => r.2
    | .error _ => s
  | .addSample tid path =>
    match add_baseline_sample tid path s with
    | .ok r => r.2
    | .error _ => s
  | .finalize tid hours =>
    match finalize_baseline tid hours extract stats s with
    | .ok r => r.2
    | .error _ => s
  | .delete tid => delete_baseline tid s

/-- Run a sequence of operations from a store state. -/
def run_baseline_ops (extract : String → Option (List ℚ))
    (stats : List (List ℚ) → List ℚ × List ℚ × ℚ)
    (s : DBState) (ops : List BaselineOp) : DBState :=
  ops.foldl (run_baseline_op extract stats) s

/-- The empty store. -/
def init_state : DBState := { baselines := [], sessions := [] }

/-- Number of baselines with `is_active=True` recorded for a tractor. -/
def active_count (tid : String) (s : DBState) : Nat :=
  (s.baselines.filter (active_pred tid)).length

/-! ## Tractor update (`update_tractor` route) -/

/-- `Tractor` document (claim-relevant fields). -/
structure TractorDoc where
  tractor_id : String
  owner_id : String
  model : String
  purchase_date_days : ℤ
  engine_hours : ℚ
  usage_intensity : UsageIntensity
  health_status : HealthStatus
  baseline_status : String
  deriving DecidableEq, Repr

/-- `TractorUpdate` request schema (all fields optional). -/
structure TractorUpdate where
  engine_hours : Option ℚ
  usage_intensity : Option UsageIntensity
  health_status : Option HealthStatus
  deriving DecidableEq, Repr

/-- The non-engine-hours field updates of the `update_tractor` route. -/
def apply_other_updates (t : TractorDoc) (u : TractorUpdate) : TractorDoc :=
  let t1 := match u.usage_intensity with
    | some ui => { t with usage_intensity := ui }
    | none => t
  match u.health_status with
  | some hs => { t1 with health_status := hs }
  | none => t1

/-- `update_tractor` route (`app/routes/tractors.py`): reject a decreased
`engine_hours` with HTTP 400 before mutating anything; otherwise apply the
provided fields and save. -/
def update_tractor (t : TractorDoc) (u : TractorUpdate) : Except String TractorDoc :=
  match u.engine_hours with
  | some nh =>
    if nh < t.engine_hours then .error "Engine hours cannot be decreased"
    else .ok (apply_other_updates { t with engine_hours := nh } u)
  | none => .ok (apply_other_updates t u)

/-- The stored document after one update request: a rejected request leaves
the document untouched. -/
def apply_update (t : TractorDoc) (u : TractorUpdate) : TractorDoc :=
  match update_tractor t u with
  | .ok t1 => t1
  | .error _ => t

/-- The stored document after a sequence of update requests. -/
def apply_updates (t : TractorDoc) (us : List TractorUpdate) : TractorDoc :=
  us.foldl apply_update t

/-! ## Concrete documents used to evaluate the operations -/

/-- An oil-change catalog entry with `interval_hours=250, interval_days=180`
(the boundary example of the specification). -/
def task250 : MaintenanceTaskInfo :=
  { task_name := "engine_oil_change"
    description := "Change engine oil"
    priority := .medium
    interval_hours := 250
    interval_days := 180
    estimated_time_minutes := 45
    source := "MF 240 Manual" }

/-- A degenerate catalog entry whose `interval_hours` is 0, so that the
division `hours_since / interval_hours` raises `ZeroDivisionError`. -/
def degenerate_task : MaintenanceTaskInfo :=
  { task_name := "engine_oil_change"
    description := "Change engine oil"
    priority := .medium
    interval_hours := 0
    interval_days := 180
    estimated_time_minutes := 45
    source := "MF 240 Manual" }

/-- A collection session in the ESTABLISHING state with 2 of 5 samples. -/
def ex_session : BaselineMetadataDoc :=
  { tractor_id := "T1"
    target_samples := 5
    collected_samples := 2
    sample_files := ["a.wav", "b.wav"]
    status := .establishing }

/-- A store holding `ex_session` and no baselines. -/
def ex_state : DBState := { baselines := [], sessions := [ex_session] }

/-- A collection session that has already reached its target (5 of 5). -/
def full_session : BaselineMetadataDoc :=
  { tractor_id := "T2"
    target_samples := 5
    collected_samples := 5
    sample_files := ["1.wav", "2.wav", "3.wav", "4.wav", "5.wav"]
    status := .establishing }

/-- A store holding `full_session` and no baselines. -/
def full_state : DBState := { baselines := [], sessions := [full_session] }

/-- A previously finalized baseline that is currently active for T1. -/
def wit_old_baseline : TractorBaselineDoc :=
  { tractor_id := "T1"
    baseline_mean := [2]
    baseline_std := [1]
    tractor_hours := 5
    num_samples := 3
    sample_files := ["p.wav", "q.wav", "r.wav"]
    confidence := 1
    status := .active
    is_active := true }

/-- A session for T1 with exactly 3 collected samples, ready to finalize. -/
def wit_session3 : BaselineMetadataDoc :=
  { tractor_id := "T1"
    target_samples := 5
    collected_samples := 3
    sample_files := ["x.wav", "y.wav", "z.wav"]
    status := .establishing }

/-- A store with one active baseline and one finalizable session for T1. -/
def wit_state5 : DBState :=
  { baselines := [wit_old_baseline], sessions := [wit_session3] }

/-- An extraction oracle for which every sample file succeeds. -/
def wit_extract : String → Option (List ℚ) := fun _ => some [1]

/-- A statistics oracle returning a fixed (mean, std, confidence). -/
def wit_stats : List (List ℚ) → List ℚ × List ℚ × ℚ := fun _ => ([1], [1], 1)

/-- The baseline document that finalizing `wit_state5` produces (statistics
from `wit_stats`, three samples via `wit_extract`). -/
def wit_new_baseline : TractorBaselineDoc :=
  { tractor_id := "T1"
    baseline_mean := [1]
    baseline_std := [1]
    tractor_hours := 10
    num_samples := 3
    sample_files := ["x.wav", "y.wav", "z.wav"]
    confidence := 1
    status := .active
    is_active := true }

/-- The store after finalizing `wit_state5`: the old baseline archived, the
new one active, the session marked ACTIVE. -/
def wit_state_after : DBState :=
  { baselines := [archived_doc wit_old_baseline, wit_new_baseline]
    sessions := [{ wit_session3 with status := .active }] }

/-- A low-priority oil-change alert. -/
def wit_low_alert : MaintenanceAlert :=
  { tractor_id := "T1"
    alert_type := .routine_scheduled
    priority := .low
    status := .due
    task_name := "engine_oil_change"
    description := "Change engine oil"
    estimated_time_minutes := 45
    source := "MF 240 Manual"
    due_offset_days := 3
    audio_anomaly_score := none }

/-- A critical audio-anomaly alert for the same task. -/
def wit_crit_alert : MaintenanceAlert :=
  { tractor_id := "T1"
    alert_type := .audio_anomaly
    priority := .critical
    status := .due
    task_name := "engine_oil_change"
    description := "Audio anomaly detected"
    estimated_time_minutes := 45
    source := "MF 240 Manual"
    due_offset_days := 0
    audio_anomaly_score := some (9/10) }

/-! ## C2: health score -/

theorem foldl_sub_penalty (alerts : List MaintenanceAlert) (s : ℚ) :
    alerts.foldl (fun acc a => acc - alert_penalty a) s = s - (alerts.map alert_penalty).sum := by
  induction alerts generalizing s with
  | nil => simp
  | cons a l ih => simp [List.foldl_cons, ih, sub_sub]

theorem penalty_sum_eq (alerts : List MaintenanceAlert) :
    (alerts.map alert_penalty).sum =
      20 * (overdue_critical_count alerts : ℚ) + 10 * (overdue_high_count alerts : ℚ)
        + 5 * (overdue_other_count alerts : ℚ) := by
  induction alerts with
  | nil => simp [overdue_critical_count, overdue_high_count, overdue_other_count]
  | cons a l ih =>
    simp only [overdue_critical_count, overdue_high_count, overdue_other_count] at ih ⊢
    rw [List.map_cons, List.sum_cons, ih, List.countP_cons, List.countP_cons, List.countP_cons]
    unfold alert_penalty
    by_cases h1 : a.status = .overdue
    · by_cases h2 : a.priority = .critical
      · rw [if_pos h1, if_pos h2]
        simp [h1, h2]
        ring
      · by_cases h3 : a.priority = .high
        · rw [if_pos h1, if_neg h2, if_pos h3]
          simp [h1, h2, h3]
          ring
        · rw [if_pos h1, if_neg h2, if_neg h3]
          simp [h1, h2, h3]
          ring
    · rw [if_neg h1]
      simp [h1]

/-- C2 (corrected claim, as the code computes it): the Unified Engine's
health score is 100 minus 20 per overdue-critical alert, 10 per overdue-high
alert, and 5 per other overdue alert, clamped below at 0; it lies in
[0, 100]; and it does not depend on the 7-day anomaly count at all (no
`min(n*5, 30)` term is subtracted). -/
theorem health_score_engine_characterization (alerts : List MaintenanceAlert) (n : Nat) :
    (get_maintenance_summary_health alerts n).health_score =
      max (100 - 20 * (overdue_critical_count alerts : ℚ)
          - 10 * (overdue_high_count alerts : ℚ)
          - 5 * (overdue_other_count alerts : ℚ)) 0 ∧
    0 ≤ (get_maintenance_summary_health alerts n).health_score ∧
    (get_maintenance_summary_health alerts n).health_score ≤ 100 ∧
    (get_maintenance_summary_health alerts n).health_score =
      (get_maintenance_summary_health alerts 0).health_score := by
  have hkey : (get_maintenance_summary_health alerts n).health_score =
      max (100 - 20 * (overdue_critical_count alerts : ℚ)
          - 10 * (overdue_high_count alerts : ℚ)
          - 5 * (overdue_other_count alerts : ℚ)) 0 := by
    show max (alerts.foldl (fun acc a => acc - alert_penalty a) 100) 0 = _
    rw [foldl_sub_penalty, penalty_sum_eq]
    ring_nf
  have hc1 : (0 : ℚ) ≤ (overdue_critical_count alerts : ℚ) := Nat.cast_nonneg _
  have hc2 : (0 : ℚ) ≤ (overdue_high_count alerts : ℚ) := Nat.cast_nonneg _
  have hc3 : (0 : ℚ) ≤ (overdue_other_count alerts : ℚ) := Nat.cast_nonneg _
  refine ⟨hkey, ?_, ?_, rfl⟩
  · rw [hkey]; exact le_max_right _ _
  · rw [hkey]
    apply max_le _ (by norm_num)
    linarith

/-- C2 counterexample: with no alerts and one recent anomaly (n = 1) the
claimed formula demands `100 - min(1*5, 30) = 95`, but the engine returns
100 — `get_maintenance_summary` never subtracts the anomaly term. -/
theorem health_score_anomaly_term_counterexample :
    (get_maintenance_summary_health [] 1).health_score = 100 ∧
    health_score_spec_formula [] 1 = 95 ∧
    (get_maintenance_summary_health [] 1).health_score ≠ health_score_spec_formula [] 1 := by
  refine ⟨?_, ?_, ?_⟩ <;>
    norm_num [get_maintenance_summary_health, calculate_health_score,
      health_score_spec_formula]

/-! ## C3: score fusion -/

/-- C3: for a classifier score in [0,1] and a nonnegative raw deviation d,
the fused result has `combined_score = 0.6*c + 0.4*min(1, d/3)` and a status
banded on the raw deviation alone: normal iff d < 2, watch iff 2 ≤ d < 2.5,
warning iff 2.5 ≤ d < 3, critical iff d ≥ 3 (so each boundary belongs to
the upper band). -/
theorem combine_scores_thresholds (c d : ℚ) (hc0 : 0 ≤ c) (hc1 : c ≤ 1) (hd : 0 ≤ d) :
    (combine_scores c d (3/5) (2/5)).combined_score = 3/5 * c + 2/5 * min 1 (d / 3) ∧
    ((combine_scores c d (3/5) (2/5)).status = .normal ↔ d < 2) ∧
    ((combine_scores c d (3/5) (2/5)).status = .watch ↔ 2 ≤ d ∧ d < 5/2) ∧
    ((combine_scores c d (3/5) (2/5)).status = .warning ↔ 5/2 ≤ d ∧ d < 3) ∧
    ((combine_scores c d (3/5) (2/5)).status = .critical ↔ 3 ≤ d) := by
  have hs : (combine_scores c d (3/5) (2/5)).status =
      (if d < 2 then TrendStatus.normal
        else if d < 5/2 then TrendStatus.watch
        else if d < 3 then TrendStatus.warning
        else TrendStatus.critical) := rfl
  refine ⟨rfl, ?_, ?_, ?_, ?_⟩ <;> rw [hs] <;> split_ifs with h1 h2 h3 <;> simp_all <;>
    first
      | linarith
      | (constructor <;> linarith)
      | (intro h4; linarith)

/-- Witness for C3 at the three claimed boundary deviations 2.0, 2.5, 3.0
(with classifier score 1/2). -/
theorem combine_scores_thresholds_witness :
    (combine_scores (1/2) 2 (3/5) (2/5)).status = TrendStatus.watch ∧
    (combine_scores (1/2) (5/2) (3/5) (2/5)).status = TrendStatus.warning ∧
    (combine_scores (1/2) 3 (3/5) (2/5)).status = TrendStatus.critical :=
  ⟨(combine_scores_thresholds (1/2) 2 (by norm_num) (by norm_num)
      (by norm_num)).2.2.1.mpr (by norm_num),
    (combine_scores_thresholds (1/2) (5/2) (by norm_num) (by norm_num)
      (by norm_num)).2.2.2.1.mpr (by norm_num),
    (combine_scores_thresholds (1/2) 3 (by norm_num) (by norm_num)
      (by norm_num)).2.2.2.2.mpr (by norm_num)⟩

/-! ## C8: deviation -/

theorem zip_self_eq_map (l : List ℚ) : l.zip l = l.map (fun x => (x, x)) := by
  induction l with
  | nil => rfl
  | cons a t ih => simp [List.zip_cons_cons, ih]

theorem foldl_max_zeros (l : List ℚ) (h : ∀ x ∈ l, x = 0) : l.foldl max 0 = 0 := by
  induction l with
  | nil => rfl
  | cons a t ih =>
    have ha : a = 0 := h a (List.mem_cons_self a t)
    rw [List.foldl_cons, ha, max_self]
    exact ih (fun x hx => h x (List.mem_cons_of_mem a hx))

/-- C8: `calculate_deviation` truncates all three vectors to their shortest
common length (the reported `total_features`), substitutes the epsilon 1e-6
for every zero std entry so that no divisor is zero, and for a new vector
identical to the baseline mean returns average and maximum z-scores exactly
0 whenever it returns at all. -/
theorem calculate_deviation_spec :
    (∀ v m s r, calculate_deviation v m s = some r →
        r.total_features = min (min v.length m.length) s.length) ∧
    (∀ s x, x ∈ eps_substitute s → x ≠ 0) ∧
    (∀ v s r, calculate_deviation v v s = some r →
        r.average_deviation = 0 ∧ r.max_deviation = 0) := by
  refine ⟨?_, ?_, ?_⟩
  · intro v m s r h
    simp only [calculate_deviation] at h
    split at h
    · exact absurd h (by simp)
    · rename_i z0 zrest heq
      have hr : r.total_features = (z0 :: zrest).length := by
        cases h
        rfl
      have hlen : ((((v.take (min (min v.length m.length) s.length)).zip
          (m.take (min (min v.length m.length) s.length))).zip
          (eps_substitute (s.take (min (min v.length m.length) s.length)))).map
          (fun p => |(p.1.1 - p.1.2) / p.2|)).length
          = min (min v.length m.length) s.length := by
        simp [eps_substitute, List.length_zip]
      rw [hr, ← heq, hlen]
  · intro s x hx
    simp only [eps_substitute, List.mem_map] at hx
    obtain ⟨y, _, hxy⟩ := hx
    by_cases hy : y = 0
    · rw [if_pos hy] at hxy
      rw [← hxy]
      norm_num
    · rw [if_neg hy] at hxy
      rw [← hxy]
      exact hy
  · intro v s r h
    simp only [calculate_deviation] at h
    split at h
    · exact absurd h (by simp)
    · rename_i z0 zrest heq
      have hall : ∀ x ∈ z0 :: zrest, x = 0 := by
        rw [← heq]
        intro x hx
        simp only [List.mem_map] at hx
        obtain ⟨p, hp, hpx⟩ := hx
        have h1 := (List.of_mem_zip hp).1
        rw [zip_self_eq_map] at h1
        simp only [List.mem_map] at h1
        obtain ⟨y, _, hy⟩ := h1
        rw [← hpx, ← hy]
        simp
      have hz0 : z0 = 0 := hall z0 (List.mem_cons_self _ _)
      have hrest : ∀ x ∈ zrest, x = 0 := fun x hx => hall x (List.mem_cons_of_mem _ hx)
      have hsum : (z0 :: zrest).sum = 0 := List.sum_eq_zero hall
      have hmax : zrest.foldl max z0 = 0 := by
        rw [hz0]
        exact foldl_max_zeros zrest hrest
      cases h
      constructor
      · show (z0 :: zrest).sum / _ = 0
        rw [hsum, zero_div]
      · exact hmax

/-- Witness for C8: a concrete vector compared against itself, with a std
vector containing a zero entry, yields average and maximum z-scores 0. -/
theorem calculate_deviation_spec_witness :
    (DeviationResult.mk 0 0 0 0 2).average_deviation = 0 ∧
    (DeviationResult.mk 0 0 0 0 2).max_deviation = 0 :=
  calculate_deviation_spec.2.2 [1, 2] [0, 1] (DeviationResult.mk 0 0 0 0 2)
    (by norm_num [calculate_deviation, eps_substitute])

/-! ## C9: engine-hours monotonicity -/

theorem apply_other_updates_engine_hours (t : TractorDoc) (u : TractorUpdate) :
    (apply_other_updates t u).engine_hours = t.engine_hours := by
  unfold apply_other_updates
  cases u.usage_intensity <;> cases u.health_status <;> rfl

/-- C9: a request decreasing `engine_hours` is rejected with HTTP 400
("Engine hours cannot be decreased") and leaves the stored document
unchanged; every accepted request yields `new_hours ≥ old_hours`; hence
`engine_hours` is non-decreasing across any sequence of update requests. -/
theorem update_tractor_monotonic :
    (∀ t u nh, u.engine_hours = some nh → nh < t.engine_hours →
        update_tractor t u = .error "Engine hours cannot be decreased" ∧
        apply_update t u = t) ∧
    (∀ t u t1, update_tractor t u = .ok t1 → t.engine_hours ≤ t1.engine_hours) ∧
    (∀ t us, t.engine_hours ≤ (apply_updates t us).engine_hours) := by
  have hok : ∀ t u t1, update_tractor t u = .ok t1 → t.engine_hours ≤ t1.engine_hours := by
    intro t u t1 h
    unfold update_tractor at h
    split at h
    · rename_i nh hnh
      split at h
      · exact absurd h (by simp)
      · rename_i hge
        cases h
        rw [apply_other_updates_engine_hours]
        exact le_of_not_lt hge
    · cases h
      rw [apply_other_updates_engine_hours]
  have hstep : ∀ t u, t.engine_hours ≤ (apply_update t u).engine_hours := by
    intro t u
    unfold apply_update
    split
    · rename_i t1 h
      exact hok t u t1 h
    · exact le_refl _
  refine ⟨?_, hok, ?_⟩
  · intro t u nh hnh hlt
    have herr : update_tractor t u = .error "Engine hours cannot be decreased" := by
      unfold update_tractor
      rw [hnh]
      simp [hlt]
    refine ⟨herr, ?_⟩
    unfold apply_update
    rw [herr]
  · intro t us
    induction us generalizing t with
    | nil => exact le_refl _
    | cons u us ih =>
      calc t.engine_hours ≤ (apply_update t u).engine_hours := hstep t u
        _ ≤ (apply_updates (apply_update t u) us).engine_hours := ih _
        _ = (apply_updates t (u :: us)).engine_hours := rfl

/-- Witness for C9: a request lowering hours from 100 to 50 is rejected and
leaves the document unchanged. -/
theorem update_tractor_monotonic_witness :
    update_tractor
        (TractorDoc.mk "T1" "O1" "MF_240" 0 100 .moderate .good "pending")
        (TractorUpdate.mk (some 50) none none) =
      .error "Engine hours cannot be decreased" ∧
    apply_update
        (TractorDoc.mk "T1" "O1" "MF_240" 0 100 .moderate .good "pending")
        (TractorUpdate.mk (some 50) none none) =
      TractorDoc.mk "T1" "O1" "MF_240" 0 100 .moderate .good "pending" :=
  update_tractor_monotonic.1
    (TractorDoc.mk "T1" "O1" "MF_240" 0 100 .moderate .good "pending")
    (TractorUpdate.mk (some 50) none none) 50 rfl (by norm_num)

/-! ## C10: error propagation in the schedule predictor -/

/-- C10 counterexample: for a degenerate task interval the internal
evaluation raises `ZeroDivisionError`, yet `predict_single_task` returns
`None` — byte-for-byte the same caller-visible outcome as "no alert", so no
typed failure reaches the caller. -/
theorem predict_error_swallowed_counterexample :
    predict_single_task_checked degenerate_task "T1" 100 0 10 .moderate =
      .error "ZeroDivisionError" ∧
    predict_single_task degenerate_task "T1" 100 0 10 .moderate = none := by
  constructor <;>
    norm_num [predict_single_task, predict_single_task_checked,
      adjusted_interval_hours, degenerate_task, get_usage_factor]

/-- C10 (corrected claim): whenever the body of `predict_single_task` fails
internally, the surrounding `except Exception` handler swallows the error
and the function returns `None`, indistinguishable from the no-alert
outcome. -/
theorem predict_single_task_swallows_errors (task : MaintenanceTaskInfo)
    (tid : String) (eh lh : ℚ) (ds : ℤ) (u : UsageIntensity) (e : String)
    (h : predict_single_task_checked task tid eh lh ds u = .error e) :
    predict_single_task task tid eh lh ds u = none := by
  unfold predict_single_task
  rw [h]

/-- Witness for C10 at the degenerate zero-hour-interval task. -/
theorem predict_single_task_swallows_errors_witness :
    predict_single_task degenerate_task "T1" 100 0 10 UsageIntensity.moderate = none :=
  predict_single_task_swallows_errors degenerate_task "T1" 100 0 10 .moderate
    "ZeroDivisionError" (by
      norm_num [predict_single_task_checked, adjusted_interval_hours,
        degenerate_task, get_usage_factor])

/-! ## C1: schedule thresholds -/

theorem get_usage_factor_pos (u : UsageIntensity) : 0 < get_usage_factor u := by
  cases u <;> norm_num [get_usage_factor]

/-- C1: with positive task intervals, the predictor emits no alert below
progress 0.9 (and therefore does emit one at exactly 0.9); in \x5b0.9, 1) it
emits a `due` alert at the task's base priority due in
`min(remaining_hours/8, remaining_days)` days; in \x5b1.0, 1.1) an `overdue`
alert at base priority due in 3 days; and at ≥ 1.1 an `overdue` alert
forced to critical priority due immediately. -/
theorem predict_single_task_thresholds (task : MaintenanceTaskInfo) (tid : String)
    (eh lh : ℚ) (ds : ℤ) (u : UsageIntensity)
    (hih : 0 < task.interval_hours) (hid : 0 < task.interval_days) :
    (schedule_progress task (eh - lh) ds u < 9/10 →
        predict_single_task task tid eh lh ds u = none) ∧
    (9/10 ≤ schedule_progress task (eh - lh) ds u →
      schedule_progress task (eh - lh) ds u < 1 →
        predict_single_task task tid eh lh ds u = some
          { tractor_id := tid
            alert_type := .routine_scheduled
            priority := task.priority
            status := .due
            task_name := task.task_name
            description := task.description
            estimated_time_minutes := task.estimated_time_minutes
            source := task.source
            due_offset_days := min ((adjusted_interval_hours task u - (eh - lh)) / 8)
              (adjusted_interval_days task u - (ds : ℚ))
            audio_anomaly_score := none }) ∧
    (1 ≤ schedule_progress task (eh - lh) ds u →
      schedule_progress task (eh - lh) ds u < 11/10 →
        predict_single_task task tid eh lh ds u = some
          { tractor_id := tid
            alert_type := .routine_overdue
            priority := task.priority
            status := .overdue
            task_name := task.task_name
            description := task.description
            estimated_time_minutes := task.estimated_time_minutes
            source := task.source
            due_offset_days := 3
            audio_anomaly_score := none }) ∧
    (11/10 ≤ schedule_progress task (eh - lh) ds u →
        predict_single_task task tid eh lh ds u = some
          { tractor_id := tid
            alert_type := .routine_overdue
            priority := .critical
            status := .overdue
            task_name := task.task_name
            description := task.description
            estimated_time_minutes := task.estimated_time_minutes
            source := task.source
            due_offset_days := 0
            audio_anomaly_score := none }) := by
  have hf : 0 < get_usage_factor u := get_usage_factor_pos u
  have haih : 0 < adjusted_interval_hours task u := div_pos hih hf
  have haid : 0 < adjusted_interval_days task u := by
    have : (0 : ℚ) < (task.interval_days : ℚ) := by exact_mod_cast hid
    exact div_pos this hf
  refine ⟨?_, ?_, ?_, ?_⟩
  · intro h
    unfold predict_single_task predict_single_task_checked
    rw [if_neg haih.ne', if_neg haid.ne', if_pos h]
  · intro h1 h2
    have hno : ¬ schedule_progress task (eh - lh) ds u < 9/10 := by linarith
    have hn11 : ¬ 11/10 ≤ schedule_progress task (eh - lh) ds u := by linarith
    have hn1 : ¬ 1 ≤ schedule_progress task (eh - lh) ds u := by linarith
    have hhp : (eh - lh) / adjusted_interval_hours task u < 1 :=
      lt_of_le_of_lt (le_max_left _ _) h2
    have hdp : (ds : ℚ) / adjusted_interval_days task u < 1 :=
      lt_of_le_of_lt (le_max_right _ _) h2
    have hrh : 0 < adjusted_interval_hours task u - (eh - lh) := by
      have := (div_lt_one haih).1 hhp
      linarith
    have hrd : 0 < adjusted_interval_days task u - (ds : ℚ) := by
      have := (div_lt_one haid).1 hdp
      linarith
    have hpos : 0 < min ((adjusted_interval_hours task u - (eh - lh)) / 8)
        (adjusted_interval_days task u - (ds : ℚ)) :=
      lt_min (by linarith) hrd
    unfold predict_single_task predict_single_task_checked
    rw [if_neg haih.ne', if_neg haid.ne', if_neg hno, if_neg hn11, if_neg hn1,
      max_eq_left hpos.le]
  · intro h1 h2
    have hno : ¬ schedule_progress task (eh - lh) ds u < 9/10 := by linarith
    have hn11 : ¬ 11/10 ≤ schedule_progress task (eh - lh) ds u := by linarith
    unfold predict_single_task predict_single_task_checked
    rw [if_neg haih.ne', if_neg haid.ne', if_neg hno, if_neg hn11, if_pos h1]
  · intro h1
    have hno : ¬ schedule_progress task (eh - lh) ds u < 9/10 := by linarith
    unfold predict_single_task predict_single_task_checked
    rw [if_neg haih.ne', if_neg haid.ne', if_neg hno, if_pos h1]

/-- Witness for C1 at the specification's boundary example: task intervals
250 h / 180 d, moderate usage, 225 hours and 0 days since service, so
progress is exactly 0.9 and a `due` alert is emitted, due in
`min(25/8, 180) = 25/8` days. -/
theorem predict_single_task_thresholds_witness :
    predict_single_task task250 "T1" 225 0 0 UsageIntensity.moderate = some
      { tractor_id := "T1"
        alert_type := .routine_scheduled
        priority := MaintenancePriority.medium
        status := .due
        task_name := "engine_oil_change"
        description := "Change engine oil"
        estimated_time_minutes := 45
        source := "MF 240 Manual"
        due_offset_days := 25/8
        audio_anomaly_score := none } := by
  have h := (predict_single_task_thresholds task250 "T1" 225 0 0 .moderate
      (by norm_num [task250]) (by norm_num [task250])).2.1
      (by norm_num [schedule_progress, adjusted_interval_hours, adjusted_interval_days,
        get_usage_factor, task250])
      (by norm_num [schedule_progress, adjusted_interval_hours, adjusted_interval_days,
        get_usage_factor, task250])
  rw [h]
  norm_num [adjusted_interval_hours, adjusted_interval_days, get_usage_factor, task250]

/-! ## C6: starting a collection that is already in progress -/

/-- C6 counterexample: on a store that already has a COLLECTING session for
T1, `start_baseline_collection` does not fail — it succeeds, returning the
existing session and leaving the store unchanged. -/
theorem start_collection_no_error_counterexample :
    start_baseline_collection "T1" 5 ex_state = .ok (ex_session, ex_state) := by
  simp [start_baseline_collection, ex_state, ex_session, establishing_pred]

/-- C6 (corrected claim): when a COLLECTING session exists,
`start_baseline_collection` returns it unchanged — no error, no second
session; when none exists it inserts exactly one fresh session. -/
theorem start_collection_behavior (tid : String) (target : Nat) (s : DBState) :
    (∀ md, s.sessions.find? (establishing_pred tid) = some md →
        start_baseline_collection tid target s = .ok (md, s)) ∧
    (s.sessions.find? (establishing_pred tid) = none →
        start_baseline_collection tid target s =
          .ok (new_session tid target,
            { s with sessions := s.sessions ++ [new_session tid target] })) := by
  constructor
  · intro md h
    unfold start_baseline_collection
    rw [h]
  · intro h
    unfold start_baseline_collection
    rw [h]

/-- Witness for C6 on the empty store: a single fresh session is created. -/
theorem start_collection_behavior_witness :
    start_baseline_collection "T1" 5 init_state =
      .ok (new_session "T1" 5, DBState.mk [] [new_session "T1" 5]) := by
  have h := (start_collection_behavior "T1" 5 init_state).2 (by simp [init_state])
  simpa [init_state] using h

/-! ## C7: sample count versus target -/

/-- C7 counterexample: adding a sample to a session that already holds its
target number of samples succeeds and pushes `collected_samples` to 6 > 5 —
the `collected ≤ target` invariant does not hold. -/
theorem add_sample_exceeds_target_counterexample :
    add_baseline_sample "T2" "6.wav" full_state =
      .ok (sample_added "6.wav" full_session,
        DBState.mk [] [sample_added "6.wav" full_session]) ∧
    (sample_added "6.wav" full_session).collected_samples = 6 ∧
    (sample_added "6.wav" full_session).target_samples = 5 := by
  refine ⟨?_, by simp [sample_added, full_session], by simp [sample_added, full_session]⟩
  simp [add_baseline_sample, full_state, full_session, establishing_pred, updateFirstBy]

/-- C7 (corrected claim): `add_baseline_sample` on the COLLECTING session
increments `collected_samples` by one and appends the file
unconditionally — the target is never consulted, so the count can exceed
it. -/
theorem add_sample_increments (tid path : String) (s : DBState) (md : BaselineMetadataDoc)
    (h : s.sessions.find? (establishing_pred tid) = some md) :
    add_baseline_sample tid path s = .ok (sample_added path md,
      { s with
          sessions :=
            updateFirstBy (establishing_pred tid) (sample_added path) s.sessions }) ∧
    (sample_added path md).collected_samples = md.collected_samples + 1 ∧
    (sample_added path md).sample_files = md.sample_files ++ [path] := by
  unfold add_baseline_sample
  rw [h]
  exact ⟨rfl, rfl, rfl⟩

/-- Witness for C7 on the already-full session. -/
theorem add_sample_increments_witness :
    add_baseline_sample "T2" "7.wav" full_state = .ok (sample_added "7.wav" full_session,
      { full_state with
          sessions :=
            updateFirstBy (establishing_pred "T2") (sample_added "7.wav")
              full_state.sessions }) ∧
    (sample_added "7.wav" full_session).collected_samples =
      full_session.collected_samples + 1 ∧
    (sample_added "7.wav" full_session).sample_files =
      full_session.sample_files ++ ["7.wav"] :=
  add_sample_increments "T2" "7.wav" full_state full_session
    (by simp [full_state, full_session, establishing_pred])

/-! ## C4: alert deduplication -/

theorem updateFirstBy_length {α} (p : α → Bool) (f : α → α) (l : List α) :
    (updateFirstBy p f l).length = l.length := by
  induction l with
  | nil => rfl
  | cons x xs ih =>
    unfold updateFirstBy
    split_ifs <;> simp [ih]

theorem updateFirstBy_map_fst {α β} (p : α × β → Bool) (f : α × β → α × β)
    (hf : ∀ x, (f x).1 = x.1) (l : List (α × β)) :
    (updateFirstBy p f l).map Prod.fst = l.map Prod.fst := by
  induction l with
  | nil => rfl
  | cons x xs ih =>
    unfold updateFirstBy
    split_ifs <;> simp [ih, hf]

theorem lookup_eq_none_of_not_mem {β} (m : List (String × β)) (k : String)
    (h : k ∉ m.map Prod.fst) : m.lookup k = none := by
  induction m with
  | nil => rfl
  | cons p m ih =>
    obtain ⟨a, b⟩ := p
    simp only [List.map_cons, List.mem_cons, not_or] at h
    rw [show List.lookup k ((a, b) :: m) = List.lookup k m by
      simp [List.lookup, beq_false_of_ne h.1]]
    exact ih h.2

theorem lookup_some_mem {β} (m : List (String × β)) (k : String) (v : β)
    (h : m.lookup k = some v) : (k, v) ∈ m := by
  induction m with
  | nil => simp [List.lookup] at h
  | cons p m ih =>
    obtain ⟨a, b⟩ := p
    by_cases hk : k = a
    · subst hk
      simp [List.lookup] at h
      simp [h]
    · rw [show List.lookup k ((a, b) :: m) = List.lookup k m by
        simp [List.lookup, beq_false_of_ne hk]] at h
      exact List.mem_cons_of_mem _ (ih h)

theorem lookup_of_mem_nodup {β} (m : List (String × β)) (k : String) (v : β)
    (hnd : (m.map Prod.fst).Nodup) (hm : (k, v) ∈ m) : m.lookup k = some v := by
  induction m with
  | nil => cases hm
  | cons p m ih =>
    obtain ⟨a, b⟩ := p
    simp only [List.map_cons, List.nodup_cons] at hnd
    rcases List.mem_cons.1 hm with h | h
    · injection h with h1 h2
      subst h1
      subst h2
      simp [List.lookup]
    · have hk : k ≠ a := by
        intro he
        subst he
        exact hnd.1 (List.mem_map.2 ⟨(k, v), h, rfl⟩)
      simp [List.lookup, beq_false_of_ne hk]
      exact ih hnd.2 h

theorem mem_updateFirstBy_keyed {β} (m : List (String × β)) (k : String) (v : β)
    (hnd : (m.map Prod.fst).Nodup) :
    ∀ q ∈ updateFirstBy (fun p => p.1 == k) (fun p => (p.1, v)) m,
      (q ∈ m ∧ q.1 ≠ k) ∨ q = (k, v) := by
  induction m with
  | nil => intro q hq; cases hq
  | cons p m ih =>
    intro q hq
    simp only [List.map_cons, List.nodup_cons] at hnd
    unfold updateFirstBy at hq
    by_cases hp : p.1 = k
    · rw [if_pos (by simp [hp])] at hq
      rcases List.mem_cons.1 hq with h | h
      · right
        rw [h, hp]
      · left
        refine ⟨List.mem_cons_of_mem _ h, fun hqk => ?_⟩
        apply hnd.1
        rw [hp]
        rw [← hqk]
        exact List.mem_map.2 ⟨q, h, rfl⟩
    · rw [if_neg (by simp [hp])] at hq
      rcases List.mem_cons.1 hq with h | h
      · subst h
        exact Or.inl ⟨List.mem_cons_self _ _, hp⟩
      · rcases ih hnd.2 q h with ⟨h1, h2⟩ | h1
        · exact Or.inl ⟨List.mem_cons_of_mem _ h1, h2⟩
        · exact Or.inr h1

theorem updateFirstBy_mem_keyed {β} (m : List (String × β)) (k : String) (v : β)
    (hkin : k ∈ m.map Prod.fst) :
    (k, v) ∈ updateFirstBy (fun p => p.1 == k) (fun p => (p.1, v)) m := by
  induction m with
  | nil => simp at hkin
  | cons p m ih =>
    unfold updateFirstBy
    by_cases hp : p.1 = k
    · rw [if_pos (by simp [hp])]
      rw [hp]
      exact List.mem_cons_self _ _
    · rw [if_neg (by simp [hp])]
      simp only [List.map_cons, List.mem_cons] at hkin
      rcases hkin with h | h
      · exact absurd h.symm hp
      · exact List.mem_cons_of_mem _ (ih h)

/-- Invariant of the `task_alerts` dict after processing the processed part `xs` of
the alert list: keys are distinct; every entry is keyed by its alert's
`task_name`, holds an alert drawn from `xs` of maximal priority among the
alerts of `xs` with that task; every processed task is covered; and there
are no more entries than processed alerts. -/
def DedupInv (m : List (String × MaintenanceAlert)) (xs : List MaintenanceAlert) : Prop :=
  (m.map Prod.fst).Nodup ∧
  (∀ p ∈ m, p.2.task_name = p.1 ∧ p.2 ∈ xs ∧
      ∀ b ∈ xs, b.task_name = p.1 → priority_order p.2.priority ≤ priority_order b.priority) ∧
  (∀ b ∈ xs, b.task_name ∈ m.map Prod.fst) ∧
  m.length ≤ xs.length

theorem dedup_step_inv (m : List (String × MaintenanceAlert)) (xs : List MaintenanceAlert)
    (a : MaintenanceAlert) (h : DedupInv m xs) : DedupInv (dedup_step m a) (xs ++ [a]) := by
  obtain ⟨hnd, hent, hcov, hlen⟩ := h
  cases hlk : m.lookup a.task_name with
  | none =>
    have hstep : dedup_step m a = m ++ [(a.task_name, a)] := by
      unfold dedup_step
      rw [hlk]
    rw [hstep]
    have hknotin : a.task_name ∉ m.map Prod.fst := by
      intro hmem
      obtain ⟨p, hp, hpk⟩ := List.mem_map.1 hmem
      have hl := lookup_of_mem_nodup m p.1 p.2 hnd (by simpa using hp)
      rw [hpk, hlk] at hl
      cases hl
    refine ⟨?_, ?_, ?_, ?_⟩
    · rw [List.map_append]
      simp [List.nodup_append, hnd, hknotin]
    · intro p hp
      rcases List.mem_append.1 hp with hp | hp
      · obtain ⟨h1, h2, h3⟩ := hent p hp
        refine ⟨h1, List.mem_append_left _ h2, ?_⟩
        intro b hb hbt
        rcases List.mem_append.1 hb with hb | hb
        · exact h3 b hb hbt
        · have hba : b = a := List.mem_singleton.1 hb
          exfalso
          apply hknotin
          rw [← hba, hbt]
          exact List.mem_map.2 ⟨p, hp, rfl⟩
      · rcases List.mem_singleton.1 hp with rfl
        refine ⟨rfl, List.mem_append_right _ (List.mem_singleton.2 rfl), ?_⟩
        intro b hb hbt
        rcases List.mem_append.1 hb with hb | hb
        · have hbt1 : b.task_name = a.task_name := hbt
          exfalso
          apply hknotin
          rw [← hbt1]
          exact hcov b hb
        · rcases List.mem_singleton.1 hb with rfl
          exact le_refl _
    · intro b hb
      rw [List.map_append]
      rcases List.mem_append.1 hb with hb | hb
      · exact List.mem_append_left _ (hcov b hb)
      · rcases List.mem_singleton.1 hb with rfl
        exact List.mem_append_right _ (by simp)
    · simp only [List.length_append, List.length_cons, List.length_nil]
      omega
  | some existing =>
    have hmem_ex : (a.task_name, existing) ∈ m := lookup_some_mem m _ _ hlk
    have hkin : a.task_name ∈ m.map Prod.fst := List.mem_map.2 ⟨_, hmem_ex, rfl⟩
    obtain ⟨hex1, hex2, hex3⟩ := hent _ hmem_ex
    by_cases hpr : priority_order a.priority < priority_order existing.priority
    · have hstep : dedup_step m a =
          updateFirstBy (fun p => p.1 == a.task_name) (fun p => (p.1, a)) m := by
        unfold dedup_step
        rw [hlk]
        exact if_pos hpr
      rw [hstep]
      refine ⟨?_, ?_, ?_, ?_⟩
      · rw [updateFirstBy_map_fst (fun p => p.1 == a.task_name) (fun p => (p.1, a))
          (fun x => rfl) m]
        exact hnd
      · intro p' hp'
        rcases mem_updateFirstBy_keyed m a.task_name a hnd p' hp' with ⟨hin, hne⟩ | heq
        · obtain ⟨h1, h2, h3⟩ := hent p' hin
          refine ⟨h1, List.mem_append_left _ h2, ?_⟩
          intro b hb hbt
          rcases List.mem_append.1 hb with hb | hb
          · exact h3 b hb hbt
          · rcases List.mem_singleton.1 hb with rfl
            exact absurd hbt.symm hne
        · subst heq
          refine ⟨rfl, List.mem_append_right _ (by simp), ?_⟩
          intro b hb hbt
          rcases List.mem_append.1 hb with hb | hb
          · have h5 : priority_order existing.priority ≤ priority_order b.priority :=
              hex3 b hb hbt
            show priority_order a.priority ≤ priority_order b.priority
            omega
          · rcases List.mem_singleton.1 hb with rfl
            exact le_refl _
      · intro b hb
        rw [updateFirstBy_map_fst (fun p => p.1 == a.task_name) (fun p => (p.1, a))
          (fun x => rfl) m]
        rcases List.mem_append.1 hb with hb | hb
        · exact hcov b hb
        · rcases List.mem_singleton.1 hb with rfl
          exact hkin
      · rw [updateFirstBy_length]
        simp only [List.length_append, List.length_cons, List.length_nil]
        omega
    · have hstep : dedup_step m a = m := by
        unfold dedup_step
        rw [hlk]
        exact if_neg hpr
      rw [hstep]
      refine ⟨hnd, ?_, ?_, ?_⟩
      · intro p hp
        obtain ⟨h1, h2, h3⟩ := hent p hp
        refine ⟨h1, List.mem_append_left _ h2, ?_⟩
        intro b hb hbt
        rcases List.mem_append.1 hb with hb | hb
        · exact h3 b hb hbt
        · rcases List.mem_singleton.1 hb with rfl
          have hl : m.lookup p.1 = some p.2 :=
            lookup_of_mem_nodup m p.1 p.2 hnd (by simpa using hp)
          rw [← hbt, hlk] at hl
          have hpe : p.2 = existing := (Option.some.inj hl).symm
          rw [hpe]
          exact le_of_not_lt hpr
      · intro b hb
        rcases List.mem_append.1 hb with hb | hb
        · exact hcov b hb
        · rcases List.mem_singleton.1 hb with rfl
          exact hkin
      · simp only [List.length_append, List.length_cons, List.length_nil]
        omega

theorem foldl_dedup_inv (xs : List MaintenanceAlert) :
    ∀ (m : List (String × MaintenanceAlert)) (ys : List MaintenanceAlert),
      DedupInv m ys → DedupInv (xs.foldl dedup_step m) (ys ++ xs) := by
  induction xs with
  | nil =>
    intro m ys h
    simpa using h
  | cons a xs ih =>
    intro m ys h
    have h2 := ih (dedup_step m a) (ys ++ [a]) (dedup_step_inv m ys a h)
    simpa [List.append_assoc] using h2

theorem dedup_inv_main (alerts : List MaintenanceAlert) :
    DedupInv (alerts.foldl dedup_step []) alerts := by
  have h0 : DedupInv [] [] := by
    refine ⟨List.nodup_nil, ?_, ?_, le_refl 0⟩
    · intro p hp
      cases hp
    · intro b hb
      cases hb
  simpa using foldl_dedup_inv alerts [] [] h0

theorem foldl_dedup_fresh (ys : List MaintenanceAlert) :
    ∀ (m : List (String × MaintenanceAlert)),
      (∀ a ∈ ys, a.task_name ∉ m.map Prod.fst) →
      (ys.map (fun a => a.task_name)).Nodup →
      ys.foldl dedup_step m = m ++ ys.map (fun a => (a.task_name, a)) := by
  induction ys with
  | nil =>
    intro m _ _
    simp
  | cons a ys ih =>
    intro m hfresh hnd
    have hlk : m.lookup a.task_name = none :=
      lookup_eq_none_of_not_mem m _ (hfresh a (List.mem_cons_self _ _))
    have hstep : dedup_step m a = m ++ [(a.task_name, a)] := by
      unfold dedup_step
      rw [hlk]
    simp only [List.map_cons, List.nodup_cons] at hnd
    have hfresh2 : ∀ b ∈ ys, b.task_name ∉ (m ++ [(a.task_name, a)]).map Prod.fst := by
      intro b hb
      rw [List.map_append]
      simp only [List.mem_append, not_or]
      refine ⟨hfresh b (List.mem_cons_of_mem _ hb), ?_⟩
      simp only [List.map_cons, List.map_nil, List.mem_singleton]
      intro he
      exact hnd.1 (he ▸ List.mem_map.2 ⟨b, hb, rfl⟩)
    rw [List.foldl_cons, hstep, ih (m ++ [(a.task_name, a)]) hfresh2 hnd.2]
    simp

/-- C4: deduplication emits at most as many alerts as it receives, exactly
one alert per task_name occurring in the input, and the kept alert for each
task has minimal `priority_order` index (critical=0 < high < medium < low)
among the input alerts with that task; deduplication is idempotent — on its
own output it returns the identical list. -/
theorem deduplicate_alerts_spec (alerts : List MaintenanceAlert) :
    (deduplicate_alerts alerts).length ≤ alerts.length ∧
    ((deduplicate_alerts alerts).map (fun a => a.task_name)).Nodup ∧
    (∀ a ∈ deduplicate_alerts alerts, a ∈ alerts ∧
        ∀ b ∈ alerts, b.task_name = a.task_name →
          priority_order a.priority ≤ priority_order b.priority) ∧
    (∀ b ∈ alerts, ∃ a ∈ deduplicate_alerts alerts, a.task_name = b.task_name) ∧
    deduplicate_alerts (deduplicate_alerts alerts) = deduplicate_alerts alerts := by
  obtain ⟨hnd, hent, hcov, hlen⟩ := dedup_inv_main alerts
  have hmapkey : (alerts.foldl dedup_step []).map (fun p => p.2.task_name)
      = (alerts.foldl dedup_step []).map Prod.fst :=
    List.map_congr_left (fun p hp => (hent p hp).1)
  have hnodup_out : ((deduplicate_alerts alerts).map (fun a => a.task_name)).Nodup := by
    unfold deduplicate_alerts
    rw [List.map_map]
    rw [show ((fun a => a.task_name) ∘ Prod.snd)
        = (fun p : String × MaintenanceAlert => p.2.task_name) from rfl]
    rw [hmapkey]
    exact hnd
  refine ⟨?_, hnodup_out, ?_, ?_, ?_⟩
  · unfold deduplicate_alerts
    rw [List.length_map]
    exact hlen
  · intro a ha
    unfold deduplicate_alerts at ha
    obtain ⟨p, hp, rfl⟩ := List.mem_map.1 ha
    obtain ⟨h1, h2, h3⟩ := hent p hp
    exact ⟨h2, fun b hb hbt => h3 b hb (hbt.trans h1)⟩
  · intro b hb
    have hk := hcov b hb
    rw [← hmapkey] at hk
    obtain ⟨p, hp, hpe⟩ := List.mem_map.1 hk
    exact ⟨p.2, List.mem_map.2 ⟨p, hp, rfl⟩, hpe⟩
  · have hfresh : ∀ a ∈ deduplicate_alerts alerts,
        a.task_name ∉ (([] : List (String × MaintenanceAlert)).map Prod.fst) := by
      intro a _
      simp
    conv_lhs => rw [deduplicate_alerts]
    rw [foldl_dedup_fresh (deduplicate_alerts alerts) [] hfresh hnodup_out]
    simp only [List.nil_append, List.map_map]
    rw [show (Prod.snd ∘ fun a : MaintenanceAlert => (a.task_name, a)) = id from rfl,
      List.map_id]

/-- Witness for C4: the critical alert survives dedup of a low/critical pair
for the same task, it comes from the input, and its priority index is
minimal against the low-priority duplicate. -/
theorem deduplicate_alerts_spec_witness :
    wit_crit_alert ∈ [wit_low_alert, wit_crit_alert] ∧
    priority_order wit_crit_alert.priority ≤ priority_order wit_low_alert.priority := by
  have hmem : wit_crit_alert ∈ deduplicate_alerts [wit_low_alert, wit_crit_alert] := by
    simp [deduplicate_alerts, dedup_step, wit_low_alert, wit_crit_alert,
      priority_order, updateFirstBy, List.lookup]
  have h := (deduplicate_alerts_spec [wit_low_alert, wit_crit_alert]).2.2.1
    wit_crit_alert hmem
  exact ⟨h.1, h.2 wit_low_alert (by simp) (by simp [wit_low_alert, wit_crit_alert])⟩

/-! ## C5: at most one active baseline per machine -/

theorem mem_updateFirstBy_of_unique {α} (p : α → Bool) (f : α → α) (l : List α) (x : α)
    (hx : x ∈ l) (hpx : p x = true) (hu : (l.filter p).length ≤ 1) :
    f x ∈ updateFirstBy p f l := by
  induction l with
  | nil => cases hx
  | cons y t ih =>
    unfold updateFirstBy
    by_cases hy : p y = true
    · rw [if_pos hy]
      have ht : (t.filter p).length = 0 := by
        rw [List.filter_cons_of_pos hy] at hu
        simp only [List.length_cons] at hu
        omega
      have hxy : x = y := by
        rcases List.mem_cons.1 hx with h | h
        · exact h
        · exfalso
          have hxf : x ∈ t.filter p := List.mem_filter.2 ⟨h, hpx⟩
          rw [List.length_eq_zero] at ht
          rw [ht] at hxf
          cases hxf
      rw [hxy]
      exact List.mem_cons_self _ _
    · rw [if_neg hy]
      have hx2 : x ∈ t := by
        rcases List.mem_cons.1 hx with h | h
        · exfalso
          rw [h] at hpx
          exact hy hpx
        · exact h
      have hu2 : (t.filter p).length ≤ 1 := by
        rw [List.filter_cons_of_neg hy] at hu
        exact hu
      exact List.mem_cons_of_mem _ (ih hx2 hu2)

theorem archived_not_active (tid : String) (b : TractorBaselineDoc) :
    active_pred tid (archived_doc b) = false := by
  simp [active_pred, archived_doc]

theorem archive_filter_le (tid tid2 : String) (bs : List TractorBaselineDoc) :
    ((archive_existing_baseline tid bs).filter (active_pred tid2)).length ≤
      (bs.filter (active_pred tid2)).length := by
  unfold archive_existing_baseline
  induction bs with
  | nil => simp [updateFirstBy]
  | cons b t ih =>
    unfold updateFirstBy
    by_cases hb : active_pred tid b = true
    · rw [if_pos hb]
      rw [List.filter_cons, List.filter_cons, archived_not_active]
      simp only [Bool.false_eq_true, if_false]
      split_ifs <;> (try simp only [List.length_cons]) <;> omega
    · rw [if_neg hb]
      rw [List.filter_cons, List.filter_cons]
      split_ifs <;> (try simp only [List.length_cons]) <;> omega

theorem archive_filter_self (tid : String) (bs : List TractorBaselineDoc)
    (h : 0 < (bs.filter (active_pred tid)).length) :
    ((archive_existing_baseline tid bs).filter (active_pred tid)).length <
      (bs.filter (active_pred tid)).length := by
  unfold archive_existing_baseline at *
  induction bs with
  | nil => simp at h
  | cons b t ih =>
    unfold updateFirstBy
    by_cases hb : active_pred tid b = true
    · rw [if_pos hb]
      rw [List.filter_cons, List.filter_cons, archived_not_active, if_pos hb]
      simp only [Bool.false_eq_true, if_false, List.length_cons]
      have := archive_filter_le tid tid t
      unfold archive_existing_baseline at this
      omega
    · rw [if_neg hb]
      rw [List.filter_cons, List.filter_cons, if_neg hb, if_neg hb]
      apply ih
      rw [List.filter_cons, if_neg hb] at h
      exact h

theorem active_filter_append (tid : String) (bs : List TractorBaselineDoc)
    (b : TractorBaselineDoc) :
    ((bs ++ [b]).filter (active_pred tid)).length =
      (bs.filter (active_pred tid)).length + (if active_pred tid b then 1 else 0) := by
  rw [List.filter_append]
  simp only [List.length_append]
  congr 1
  rw [List.filter_cons]
  split_ifs <;> simp

/-- The per-machine exclusivity invariant on the store. -/
def ActiveInv (s : DBState) : Prop := ∀ tid, active_count tid s ≤ 1

theorem start_ok_baselines (tid : String) (target : Nat) (s : DBState)
    (r : BaselineMetadataDoc × DBState)
    (h : start_baseline_collection tid target s = .ok r) : r.2.baselines = s.baselines := by
  unfold start_baseline_collection at h
  split at h
  · cases h
    rfl
  · cases h
    rfl

theorem add_ok_baselines (tid path : String) (s : DBState)
    (r : BaselineMetadataDoc × DBState)
    (h : add_baseline_sample tid path s = .ok r) : r.2.baselines = s.baselines := by
  unfold add_baseline_sample at h
  split at h
  · cases h
  · cases h
    rfl

theorem finalize_ok_baselines (tid : String) (hours : ℚ)
    (ext : String → Option (List ℚ)) (st : List (List ℚ) → List ℚ × List ℚ × ℚ)
    (s : DBState) (b : TractorBaselineDoc) (s2 : DBState)
    (h : finalize_baseline tid hours ext st s = .ok (b, s2)) :
    s2.baselines = archive_existing_baseline tid s.baselines ++ [b] ∧
    b.tractor_id = tid ∧ b.is_active = true ∧ b.status = .active := by
  unfold finalize_baseline at h
  split at h
  · cases h
  · split at h
    · cases h
    · split at h
      · cases h
      · cases h
        exact ⟨rfl, rfl, rfl, rfl⟩


theorem delete_baselines_cases (tid : String) (s : DBState) :
    (delete_baseline tid s).baselines = s.baselines ∨
      (delete_baseline tid s).baselines = s.baselines.eraseP (active_status_pred tid) := by
  unfold delete_baseline
  split
  · split
    · right
      rfl
    · right
      rfl
  · split
    · left
      rfl
    · left
      rfl


theorem run_op_active_inv (ext : String → Option (List ℚ))
    (st : List (List ℚ) → List ℚ × List ℚ × ℚ) (s : DBState) (op : BaselineOp)
    (h : ActiveInv s) : ActiveInv (run_baseline_op ext st s op) := by
  intro tid2
  cases op with
  | start tid target =>
    simp only [run_baseline_op]
    split
    · rename_i r heq
      show ((r.2.baselines).filter (active_pred tid2)).length ≤ 1
      rw [start_ok_baselines tid target s r heq]
      exact h tid2
    · exact h tid2
  | addSample tid path =>
    simp only [run_baseline_op]
    split
    · rename_i r heq
      show ((r.2.baselines).filter (active_pred tid2)).length ≤ 1
      rw [add_ok_baselines tid path s r heq]
      exact h tid2
    · exact h tid2
  | finalize tid hours =>
    simp only [run_baseline_op]
    split
    · rename_i r heq
      obtain ⟨hbl, hbt, hba, _⟩ := finalize_ok_baselines tid hours ext st s r.1 r.2
        (by rw [heq])
      show ((r.2.baselines).filter (active_pred tid2)).length ≤ 1
      rw [hbl, active_filter_append]
      by_cases he : tid2 = tid
      · subst he
        have hb_act : active_pred tid2 r.1 = true := by
          simp [active_pred, hbt, hba]
        rw [if_pos hb_act]
        have hle : (s.baselines.filter (active_pred tid2)).length ≤ 1 := h tid2
        rcases Nat.eq_zero_or_pos (s.baselines.filter (active_pred tid2)).length with h0 | h0
        · have := archive_filter_le tid2 tid2 s.baselines
          omega
        · have := archive_filter_self tid2 s.baselines h0
          omega
      · have hb_not : active_pred tid2 r.1 = false := by
          simp [active_pred, hbt]
          intro habs
          exact absurd habs.symm he
        rw [if_neg (by simp [hb_not])]
        have := archive_filter_le tid tid2 s.baselines
        have hle : (s.baselines.filter (active_pred tid2)).length ≤ 1 := h tid2
        omega
    · exact h tid2
  | delete tid =>
    simp only [run_baseline_op]
    show (((delete_baseline tid s).baselines).filter (active_pred tid2)).length ≤ 1
    rcases delete_baselines_cases tid s with hc | hc
    · rw [hc]
      exact h tid2
    · rw [hc]
      have hinv2 : (s.baselines.filter (active_pred tid2)).length ≤ 1 := h tid2
      have hle : ((s.baselines.eraseP (active_status_pred tid)).filter
          (active_pred tid2)).length ≤ (s.baselines.filter (active_pred tid2)).length :=
        ((List.eraseP_sublist s.baselines).filter (active_pred tid2)).length_le
      omega

theorem run_ops_active_inv (ext : String → Option (List ℚ))
    (st : List (List ℚ) → List ℚ × List ℚ × ℚ) (ops : List BaselineOp) :
    ∀ s, ActiveInv s → ActiveInv (run_baseline_ops ext st s ops) := by
  induction ops with
  | nil =>
    intro s h
    exact h
  | cons op ops ih =>
    intro s h
    exact ih _ (run_op_active_inv ext st s op h)

/-- C5: starting from an empty store, every sequence of baseline operations
(start, add-sample, finalize, delete) leaves at most one `is_active=true`
baseline per machine; moreover a successful finalize inserts its new
baseline as active and archives (is_active=false, status=ARCHIVED) every
previously active baseline of that machine. -/
theorem baseline_active_exclusivity :
    (∀ (ext : String → Option (List ℚ)) (st : List (List ℚ) → List ℚ × List ℚ × ℚ)
        (ops : List BaselineOp) (tid : String),
      active_count tid (run_baseline_ops ext st init_state ops) ≤ 1) ∧
    (∀ (s : DBState) (tid : String) (hours : ℚ) (ext : String → Option (List ℚ))
        (st : List (List ℚ) → List ℚ × List ℚ × ℚ) (b : TractorBaselineDoc) (s2 : DBState),
      (∀ t2, active_count t2 s ≤ 1) →
      finalize_baseline tid hours ext st s = .ok (b, s2) →
      b.is_active = true ∧ b.status = .active ∧ b ∈ s2.baselines ∧
        ∀ old ∈ s.baselines, old.tractor_id = tid → old.is_active = true →
          archived_doc old ∈ s2.baselines) := by
  constructor
  · intro ext st ops tid
    have h0 : ActiveInv init_state := by
      intro t2
      show ((List.nil.filter (active_pred t2)).length ≤ 1)
      simp
    exact run_ops_active_inv ext st ops init_state h0 tid
  · intro s tid hours ext st b s2 hinv h
    obtain ⟨hbl, hbt, hba, hbs⟩ := finalize_ok_baselines tid hours ext st s b s2 h
    refine ⟨hba, hbs, ?_, ?_⟩
    · rw [hbl]
      exact List.mem_append_right _ (by simp)
    · intro old hold holdt holda
      rw [hbl]
      apply List.mem_append_left
      unfold archive_existing_baseline
      apply mem_updateFirstBy_of_unique (active_pred tid) archived_doc s.baselines old hold
      · simp [active_pred, holdt, holda]
      · exact hinv tid

/-- Witness for C5: finalizing a store that holds one active baseline and a
3-sample session for T1 yields a new active baseline while the old one
reappears archived. -/
theorem baseline_active_exclusivity_witness :
    wit_new_baseline.is_active = true ∧ wit_new_baseline.status = BaselineStatus.active ∧
    wit_new_baseline ∈ wit_state_after.baselines ∧
    archived_doc wit_old_baseline ∈ wit_state_after.baselines := by
  have hinv : ∀ t2, active_count t2 wit_state5 ≤ 1 := by
    intro t2
    have hle : (wit_state5.baselines.filter (active_pred t2)).length ≤
        wit_state5.baselines.length := List.length_filter_le _ _
    simpa [wit_state5] using hle
  have hfin : finalize_baseline "T1" 10 wit_extract wit_stats wit_state5 =
      .ok (wit_new_baseline, wit_state_after) := by
    simp [finalize_baseline, finalized_baseline, wit_state5, wit_session3,
      establishing_pred, wit_extract, wit_stats, archive_existing_baseline, updateFirstBy,
      active_pred, wit_old_baseline, wit_new_baseline, wit_state_after, archived_doc]
  have h := baseline_active_exclusivity.2 wit_state5 "T1" 10 wit_extract wit_stats
    wit_new_baseline wit_state_after hinv hfin
  exact ⟨h.1, h.2.1, h.2.2.1,
    h.2.2.2 wit_old_baseline (by simp [wit_state5]) rfl rfl⟩

end TractorCare
